import Mathlib

set_option maxRecDepth 100000

/-!
Verification of the `simple-script-compiler` repository: a tokenizer,
recursive-descent parser and tree-walking interpreter for a minimal
scripting language.

The `SimpleScript` namespace is a shallow embedding of the code under
`src/src/` (`lexer.rs`, `parser.rs`, `interpreter.rs`).  Rust `f64`
numbers are modelled as exact rationals (`Rat`); every numeric value
appearing in a verified claim is a small integer, exactly representable
in both.  Rust's mutable `self` state is passed explicitly; text written
to standard output by `print`/`println` is accumulated in the state.

The `SpecArith` namespace models, from the specification, the
arithmetic-capable variant of the pipeline whose existence is attested
by `src/src/lib.rs` (`pub use parser::BinaryOp`), `src/src/main.rs` and
the test suite, but whose source files are not part of the provided
snapshot: binary operator tokens, precedence parsing and binary
evaluation.
-/

namespace SimpleScript

/-- Literal payloads produced by the lexer (src/lexer.rs `Literal`).
Numbers are modelled as exact rationals standing in for Rust `f64`. -/
inductive Literal where
  | string (s : String)
  | number (n : Rat)
  | boolean (b : Bool)
  deriving DecidableEq

/-- Tokens of src/lexer.rs `Token`. -/
inductive Token where
  | var
  | identifier (name : String)
  | equals
  | semiColon
  | literal (l : Literal)
  | leftParen
  | rightParen
  | comma
  | eof
  deriving DecidableEq

/-- Numeric value of a digit string, most significant digit first. -/
def digitsVal (ds : List Char) : Nat :=
  ds.foldl (fun a c => a * 10 + (c.toNat - '0'.toNat)) 0

/-- Mirrors Rust `str::parse::<f64>` on the strings `read_number` can
build, which all match `-?[0-9.]*`: at least one digit and at most one
dot are required; a sole leading or trailing dot is accepted.  The
value is exact where `f64` would round (and literals beyond the `f64`
range are kept finite); every literal in the verified claims is a small
integer, identical in both readings. -/
def parseNumStr (neg : Bool) (ds : List Char) : Option Rat :=
  if !ds.any (fun c => c.isDigit) then none
  else if 2 ≤ (ds.filter (fun c => c = '.')).length then none
  else
    let intPart := ds.takeWhile (fun c => c ≠ '.')
    let fracPart := (ds.dropWhile (fun c => c ≠ '.')).drop 1
    let q : Rat :=
      mkRat (digitsVal intPart * 10 ^ fracPart.length + digitsVal fracPart) (10 ^ fracPart.length)
    some (if neg then -q else q)

/-- Characters `read_number` consumes after the optional sign. -/
def numChar (c : Char) : Bool := c.isDigit || c = '.'

/-- src/lexer.rs `Lexer::read_number`: consume an optional leading minus
and a run of digits and dots, then parse; returns the parse result and
the remaining characters. -/
def read_number (cs : List Char) : Option Rat × List Char :=
  match cs with
  | '-' :: rest => (parseNumStr true (rest.takeWhile numChar), rest.dropWhile numChar)
  | _ => (parseNumStr false (cs.takeWhile numChar), cs.dropWhile numChar)

/-- Characters `read_identifier` consumes.  Rust's
`char::is_alphanumeric` is Unicode-aware while Lean's `Char.isAlphanum`
is ASCII; every input in the verified claims is ASCII. -/
def identChar (c : Char) : Bool := c.isAlphanum || c = '_'

/-- Body of src/lexer.rs `Lexer::read_string` after the opening quote:
consume characters verbatim until a closing quote (consumed) or end of
input. -/
def read_string_body : List Char → List Char × List Char
  | [] => ([], [])
  | c :: cs =>
    if c = '"' then ([], cs)
    else
      let (s, r) := read_string_body cs
      (c :: s, r)

/-- src/lexer.rs `Lexer::next_token`, with an explicit recursion budget.
Every iteration of the Rust `loop` consumes at least one input
character, so a budget of one more than the input length (supplied by
the wrapper `next_token`) can never be exhausted; the zero-budget result
is therefore arbitrary and chosen to coincide with the end-of-input
result. -/
def nextTokenF : Nat → List Char → Token × List Char
  | 0, _ => (Token.eof, [])
  | _ + 1, [] => (Token.eof, [])
  | fuel + 1, c :: cs =>
    if c.isWhitespace then nextTokenF fuel cs
    else if c = '=' then (Token.equals, cs)
    else if c = ';' then (Token.semiColon, cs)
    else if c = '(' then (Token.leftParen, cs)
    else if c = ')' then (Token.rightParen, cs)
    else if c = ',' then (Token.comma, cs)
    else if c = '-' then
      match cs with
      | c2 :: _ =>
        if c2.isDigit || c2 = '.' then
          match read_number (c :: cs) with
          | (some n, rest) => (Token.literal (Literal.number n), rest)
          | (none, rest) => nextTokenF fuel (rest.drop 1)
        else nextTokenF fuel cs
      | [] => nextTokenF fuel cs
    else if c = '.' then
      match cs with
      | c2 :: _ =>
        if c2.isDigit then
          match read_number (c :: cs) with
          | (some n, rest) => (Token.literal (Literal.number n), rest)
          | (none, rest) => nextTokenF fuel (rest.drop 1)
        else nextTokenF fuel cs
      | [] => nextTokenF fuel cs
    else if c.isDigit then
      match read_number (c :: cs) with
      | (some n, rest) => (Token.literal (Literal.number n), rest)
      | (none, rest) => nextTokenF fuel (rest.drop 1)
    else if c.isAlpha || c = '_' then
      let rest := (c :: cs).dropWhile identChar
      match String.mk ((c :: cs).takeWhile identChar) with
      | "var" => (Token.var, rest)
      | "true" => (Token.literal (Literal.boolean true), rest)
      | "false" => (Token.literal (Literal.boolean false), rest)
      | s => (Token.identifier s, rest)
    else if c = '"' then
      let (s, r) := read_string_body cs
      (Token.literal (Literal.string (String.mk s)), r)
    else nextTokenF fuel cs

/-- src/lexer.rs `Lexer::next_token` on the remaining character stream:
returns the next token and the stream that follows it. -/
def next_token (cs : List Char) : Token × List Char :=
  nextTokenF (cs.length + 1) cs

/-- Lexer state (src/lexer.rs `Lexer`): the remaining character stream
and the current token. -/
structure Lexer where
  chars : List Char
  current_token : Token
  deriving DecidableEq

/-- src/lexer.rs `Lexer::advance`: replace the current token by the next
one computed from the stream. -/
def Lexer.advance (lx : Lexer) : Lexer :=
  { chars := (next_token lx.chars).2, current_token := (next_token lx.chars).1 }

/-- src/lexer.rs `Lexer::new`: start from the full input with current
token `EOF`, then advance once. -/
def Lexer.new (input : String) : Lexer :=
  Lexer.advance { chars := input.toList, current_token := Token.eof }

/-- Iterated `Lexer::advance`. -/
def Lexer.advanceN (lx : Lexer) : Nat → Lexer
  | 0 => lx
  | n + 1 => lx.advance.advanceN n

/-- AST expressions (src/parser.rs `Expression`). -/
inductive Expression where
  | literal (l : Literal)
  | identifier (name : String)
  | functionCall (name : String) (args : List Expression)

/-- AST statements (src/parser.rs `Statement`). -/
inductive Statement where
  | varDeclaration (name : String) (value : Expression)
  | expression (e : Expression)

/-- Parse result (src/parser.rs `Program`). -/
structure Program where
  statements : List Statement

/-- Parse errors (src/parser.rs `ParseError`).  `unexpectedEOF` and
`invalidExpression` are reserved variants the Rust grammar never
produces; `invalidExpression` doubles here as the result of recursion
budget exhaustion, which never occurs on the inputs used. -/
inductive ParseError where
  | unexpectedToken (expected : String) (found : Token)
  | unexpectedEOF
  | invalidExpression
  deriving DecidableEq

/-- Rust `std::mem::discriminant` equality specialised to `Token`
(src/parser.rs `Parser::expect_token`). -/
def Token.sameKind : Token → Token → Bool
  | Token.var, Token.var => true
  | Token.identifier _, Token.identifier _ => true
  | Token.equals, Token.equals => true
  | Token.semiColon, Token.semiColon => true
  | Token.literal _, Token.literal _ => true
  | Token.leftParen, Token.leftParen => true
  | Token.rightParen, Token.rightParen => true
  | Token.comma, Token.comma => true
  | Token.eof, Token.eof => true
  | _, _ => false

/-- Rust `format!("{:?}", token)` as used for the `expected` field of
parse errors (only unit variants reach it in the source). -/
def Token.debugName : Token → String
  | Token.var => "Var"
  | Token.identifier s => "Identifier(" ++ s ++ ")"
  | Token.equals => "Equals"
  | Token.semiColon => "SemiColon"
  | Token.literal _ => "Literal"
  | Token.leftParen => "LeftParen"
  | Token.rightParen => "RightParen"
  | Token.comma => "Comma"
  | Token.eof => "EOF"

/-- src/parser.rs `Parser::expect_token`. -/
def expect_token (expected : Token) (lx : Lexer) : Except ParseError Lexer :=
  if lx.current_token.sameKind expected then Except.ok lx.advance
  else Except.error (ParseError.unexpectedToken expected.debugName lx.current_token)

mutual

/-- src/parser.rs `Parser::parse_expression` (fuel-indexed: the fuel
only bounds recursion depth and is never exhausted when supplied by
`parseSource`). -/
def parse_expression : Nat → Lexer → Except ParseError (Expression × Lexer)
  | 0, _ => Except.error ParseError.invalidExpression
  | fuel + 1, lx =>
    match lx.current_token with
    | Token.literal l => Except.ok (Expression.literal l, lx.advance)
    | Token.identifier name =>
      let lx1 := lx.advance
      if lx1.current_token.sameKind Token.leftParen then
        parse_function_call fuel name lx1
      else
        Except.ok (Expression.identifier name, lx1)
    | t => Except.error (ParseError.unexpectedToken "expression" t)

/-- src/parser.rs `Parser::parse_function_call`. -/
def parse_function_call : Nat → String → Lexer → Except ParseError (Expression × Lexer)
  | 0, _, _ => Except.error ParseError.invalidExpression
  | fuel + 1, name, lx =>
    match expect_token Token.leftParen lx with
    | Except.error e => Except.error e
    | Except.ok lx1 =>
      if lx1.current_token.sameKind Token.rightParen then
        Except.ok (Expression.functionCall name [], lx1.advance)
      else
        match parse_args fuel lx1 [] with
        | Except.error e => Except.error e
        | Except.ok (args, lx2) => Except.ok (Expression.functionCall name args, lx2)

/-- Argument loop inside src/parser.rs `Parser::parse_function_call`. -/
def parse_args : Nat → Lexer → List Expression → Except ParseError (List Expression × Lexer)
  | 0, _, _ => Except.error ParseError.invalidExpression
  | fuel + 1, lx, acc =>
    match parse_expression fuel lx with
    | Except.error e => Except.error e
    | Except.ok (arg, lx1) =>
      match lx1.current_token with
      | Token.comma => parse_args fuel lx1.advance (acc ++ [arg])
      | Token.rightParen => Except.ok (acc ++ [arg], lx1.advance)
      | t => Except.error (ParseError.unexpectedToken "',' or ')'" t)

end

/-- src/parser.rs `Parser::parse_var_declaration`. -/
def parse_var_declaration (fuel : Nat) (lx : Lexer) : Except ParseError (Statement × Lexer) :=
  let lx1 := lx.advance
  match lx1.current_token with
  | Token.identifier name =>
    let lx2 := lx1.advance
    match expect_token Token.equals lx2 with
    | Except.error e => Except.error e
    | Except.ok lx3 =>
      match parse_expression fuel lx3 with
      | Except.error e => Except.error e
      | Except.ok (value, lx4) =>
        match expect_token Token.semiColon lx4 with
        | Except.error e => Except.error e
        | Except.ok lx5 => Except.ok (Statement.varDeclaration name value, lx5)
  | t => Except.error (ParseError.unexpectedToken "identifier" t)

/-- src/parser.rs `Parser::parse_statement`. -/
def parse_statement (fuel : Nat) (lx : Lexer) : Except ParseError (Statement × Lexer) :=
  match lx.current_token with
  | Token.var => parse_var_declaration fuel lx
  | _ =>
    match parse_expression fuel lx with
    | Except.error e => Except.error e
    | Except.ok (expr, lx1) =>
      match expect_token Token.semiColon lx1 with
      | Except.error e => Except.error e
      | Except.ok lx2 => Except.ok (Statement.expression expr, lx2)

/-- Statement loop of src/parser.rs `Parser::parse`. -/
def parse_program : Nat → Lexer → List Statement → Except ParseError Program
  | 0, _, _ => Except.error ParseError.invalidExpression
  | fuel + 1, lx, acc =>
    if lx.current_token.sameKind Token.eof then Except.ok { statements := acc }
    else
      match parse_statement fuel lx with
      | Except.error e => Except.error e
      | Except.ok (stmt, lx1) => parse_program fuel lx1 (acc ++ [stmt])

/-- src/parser.rs `Parser::parse` on a source string.  The fuel bound
comfortably exceeds the recursion depth and loop count any input of
this length can produce. -/
def parseSource (s : String) : Except ParseError Program :=
  parse_program (2 * s.length + 2) (Lexer.new s) []

/-- Runtime values (src/interpreter.rs `Value`). -/
inductive Value where
  | string (s : String)
  | number (n : Rat)
  | boolean (b : Bool)
  | null
  deriving DecidableEq

/-- Runtime errors (src/interpreter.rs `RuntimeError`). -/
inductive RuntimeError where
  | undefinedVariable (name : String)
  | undefinedFunction (name : String)
  | typeError (msg : String)
  | arityMismatch (function : String) (expected : Nat) (found : Nat)
  deriving DecidableEq

/-- Display form of a value (src/interpreter.rs `impl Display for
Value`): integral numbers print without a decimal point; the
non-integral float formatting is approximated by the rational's string
form (no claim depends on it). -/
def Value.display : Value → String
  | Value.string s => s
  | Value.number n => if n.den = 1 then toString n.num else toString n
  | Value.boolean b => toString b
  | Value.null => "null"

/-- Variable scope (src/interpreter.rs `Environment`): the `HashMap`
field `variables` is modelled by its lookup function (`vars`, since
`variables` is reserved in Lean). -/
structure Environment where
  vars : String → Option Value

/-- src/interpreter.rs `Environment::define` (`HashMap::insert`:
insert-or-overwrite). -/
def Environment.define (env : Environment) (name : String) (v : Value) : Environment :=
  { vars := fun n => if n = name then some v else env.vars n }

/-- src/interpreter.rs `Environment::get`. -/
def Environment.get (env : Environment) (name : String) : Except RuntimeError Value :=
  match env.vars name with
  | some v => Except.ok v
  | none => Except.error (RuntimeError.undefinedVariable name)

/-- Interpreter state (src/interpreter.rs `Interpreter`), extended with
the text the run has written to standard output. -/
structure Interpreter where
  environment : Environment
  output : String

/-- src/interpreter.rs `Interpreter::new` (empty environment, nothing
printed yet). -/
def Interpreter.new : Interpreter :=
  { environment := { vars := fun _ => none }, output := "" }

/-- src/interpreter.rs `Interpreter::get_variables`. -/
def get_variables (it : Interpreter) : String → Option Value :=
  it.environment.vars

/-- src/interpreter.rs `Interpreter::literal_to_value`. -/
def literal_to_value : Literal → Value
  | Literal.string s => Value.string s
  | Literal.number n => Value.number n
  | Literal.boolean b => Value.boolean b

/-- Space-separated display forms, as written by `builtin_print`. -/
def joinDisplays (args : List Value) : String :=
  String.intercalate " " (args.map Value.display)

/-- src/interpreter.rs `Interpreter::builtin_print`. -/
def builtin_print (args : List Value) (it : Interpreter) :
    Interpreter × Except RuntimeError Value :=
  ({ it with output := it.output ++ joinDisplays args }, Except.ok Value.null)

/-- src/interpreter.rs `Interpreter::builtin_println`. -/
def builtin_println (args : List Value) (it : Interpreter) :
    Interpreter × Except RuntimeError Value :=
  ({ it with output := it.output ++ joinDisplays args ++ "\n" }, Except.ok Value.null)

/-- src/interpreter.rs `Interpreter::builtin_typeof`. -/
def builtin_typeof (args : List Value) : Except RuntimeError Value :=
  match args with
  | [v] =>
    Except.ok (Value.string
      (match v with
       | Value.string _ => "string"
       | Value.number _ => "number"
       | Value.boolean _ => "boolean"
       | Value.null => "null"))
  | _ => Except.error (RuntimeError.arityMismatch "typeof" 1 args.length)

/-- Builtin dispatch at the bottom of src/interpreter.rs
`Interpreter::call_function`: match on the name once the argument
values are available. -/
def dispatch_builtin (name : String) (vs : List Value) (it : Interpreter) :
    Interpreter × Except RuntimeError Value :=
  match name with
  | "print" => builtin_print vs it
  | "println" => builtin_println vs it
  | "typeof" => (it, builtin_typeof vs)
  | _ => (it, Except.error (RuntimeError.undefinedFunction name))

mutual

/-- src/interpreter.rs `Interpreter::evaluate_expression` (with the body
of `call_function` unfolded into the function-call branch, so that the
recursion is structural). -/
def evaluate_expression (it : Interpreter) : Expression → Interpreter × Except RuntimeError Value
  | Expression.literal l => (it, Except.ok (literal_to_value l))
  | Expression.identifier name => (it, it.environment.get name)
  | Expression.functionCall name args =>
    match evaluate_args it args with
    | (it1, Except.error e) => (it1, Except.error e)
    | (it1, Except.ok vs) => dispatch_builtin name vs it1
  termination_by structural e => e

/-- Argument loop at the top of src/interpreter.rs
`Interpreter::call_function`: left-to-right, stopping at the first
error. -/
def evaluate_args (it : Interpreter) : List Expression → Interpreter × Except RuntimeError (List Value)
  | [] => (it, Except.ok [])
  | a :: rest =>
    match evaluate_expression it a with
    | (it1, Except.error e) => (it1, Except.error e)
    | (it1, Except.ok v) =>
      match evaluate_args it1 rest with
      | (it2, Except.error e) => (it2, Except.error e)
      | (it2, Except.ok vs) => (it2, Except.ok (v :: vs))
  termination_by structural l => l

end

/-- src/interpreter.rs `Interpreter::call_function`: all arguments are
evaluated left to right before the callee name is examined.
Definitionally equal to the function-call branch of
`evaluate_expression`. -/
def call_function (it : Interpreter) (name : String) (args : List Expression) :
    Interpreter × Except RuntimeError Value :=
  match evaluate_args it args with
  | (it1, Except.error e) => (it1, Except.error e)
  | (it1, Except.ok vs) => dispatch_builtin name vs it1

deriving instance DecidableEq for Except

/-- src/interpreter.rs `Interpreter::execute_statement`. -/
def execute_statement (it : Interpreter) : Statement → Interpreter × Option RuntimeError
  | Statement.varDeclaration name value =>
    match evaluate_expression it value with
    | (it1, Except.error e) => (it1, some e)
    | (it1, Except.ok v) =>
      ({ it1 with environment := it1.environment.define name v }, none)
  | Statement.expression e =>
    match evaluate_expression it e with
    | (it1, Except.error er) => (it1, some er)
    | (it1, Except.ok _) => (it1, none)

/-- Statement loop of src/interpreter.rs `Interpreter::interpret`:
execute in order, stopping at the first runtime error; the state
reached so far is retained. -/
def interpret_statements (it : Interpreter) : List Statement → Interpreter × Option RuntimeError
  | [] => (it, none)
  | s :: rest =>
    match execute_statement it s with
    | (it1, some e) => (it1, some e)
    | (it1, none) => interpret_statements it1 rest

/-- src/interpreter.rs `Interpreter::interpret`. -/
def interpret (it : Interpreter) (p : Program) : Interpreter × Option RuntimeError :=
  interpret_statements it p.statements

/-- Full pipeline, final state: tokenize, parse and interpret from an
empty environment; `none` if parsing fails.  The final interpreter
state is returned whether or not a runtime error occurred (as in Rust,
where the caller retains the `Interpreter` value). -/
def runSt (s : String) : Option Interpreter :=
  match parseSource s with
  | Except.error _ => none
  | Except.ok p => some (interpret Interpreter.new p).1

/-- Full pipeline, error outcome: `some e` when parsing succeeded and
interpreting stopped at runtime error `e`; `none` when the program ran
to completion (or did not parse). -/
def runErr (s : String) : Option RuntimeError :=
  match parseSource s with
  | Except.error _ => none
  | Except.ok p => (interpret Interpreter.new p).2

/-- Full pipeline, success: the final state provided tokenizing,
parsing and interpreting all succeed. -/
def runOk (s : String) : Option Interpreter :=
  match parseSource s with
  | Except.error _ => none
  | Except.ok p =>
    match interpret Interpreter.new p with
    | (it, none) => some it
    | (_, some _) => none

end SimpleScript

namespace SpecArith

/-!
This namespace models, from the specification (spec.md §3, §4.1–§4.3),
the arithmetic-capable lexer, parser and evaluator of the repository.
Their source files are missing from the provided snapshot: only their
declarations (`src/src/lib.rs`: `pub use parser::BinaryOp`), their
caller (`src/src/main.rs`) and their tests
(`src/tests/integration_tests.rs`) are present, and the snapshot's
`src/src/parser.rs` (which lacks `BinaryOp`) cannot be the module those
files compile against.
-/

/-- Modelled from the spec: literal payloads (spec.md §3 `Literal`),
as in the snapshot's lexer; numbers are exact rationals standing in for
`f64`. -/
inductive Literal where
  | string (s : String)
  | number (n : Rat)
  | boolean (b : Bool)
  deriving DecidableEq

/-- Modelled from the spec: tokens including the four arithmetic
operator tokens `+ - * /` (spec.md §3 `Token`, §4.1 rules 2–3), which
the snapshot's `Token` lacks. -/
inductive Token where
  | var
  | identifier (name : String)
  | equals
  | semiColon
  | literal (l : Literal)
  | leftParen
  | rightParen
  | comma
  | plus
  | minus
  | star
  | slash
  | eof
  deriving DecidableEq

/-- Numeric value of a digit string, most significant digit first. -/
def digitsVal (ds : List Char) : Nat :=
  ds.foldl (fun a c => a * 10 + (c.toNat - '0'.toNat)) 0

/-- Modelled from the spec: numeric text parsing (spec.md §4.1 rule 5),
mirroring Rust `str::parse::<f64>` on strings matching `-?[0-9.]*`:
at least one digit and at most one dot are required. -/
def parseNumStr (neg : Bool) (ds : List Char) : Option Rat :=
  if !ds.any (fun c => c.isDigit) then none
  else if 2 ≤ (ds.filter (fun c => c = '.')).length then none
  else
    let intPart := ds.takeWhile (fun c => c ≠ '.')
    let fracPart := (ds.dropWhile (fun c => c ≠ '.')).drop 1
    let q : Rat :=
      mkRat (digitsVal intPart * 10 ^ fracPart.length + digitsVal fracPart) (10 ^ fracPart.length)
    some (if neg then -q else q)

/-- Characters a numeric literal consumes after the optional sign. -/
def numChar (c : Char) : Bool := c.isDigit || c = '.'

/-- Modelled from the spec: signed numeric literal consumption
(spec.md §4.1 rules 3–5), as in the snapshot's `read_number`. -/
def read_number (cs : List Char) : Option Rat × List Char :=
  match cs with
  | '-' :: rest => (parseNumStr true (rest.takeWhile numChar), rest.dropWhile numChar)
  | _ => (parseNumStr false (cs.takeWhile numChar), cs.dropWhile numChar)

/-- Characters an identifier consumes. -/
def identChar (c : Char) : Bool := c.isAlphanum || c = '_'

/-- Modelled from the spec: string-literal body (spec.md §4.1 rule 7),
as in the snapshot's `read_string`. -/
def read_string_body : List Char → List Char × List Char
  | [] => ([], [])
  | c :: cs =>
    if c = '"' then ([], cs)
    else
      let (s, r) := read_string_body cs
      (c :: s, r)

/-- Modelled from the spec: the tokenizer step (spec.md §4.1, all nine
rules), extending the snapshot's `next_token` with the operator tokens:
`+ * /` are single-character tokens, and `-` not followed by a digit or
dot is the subtraction operator token.  The recursion budget only
bounds the number of loop iterations; every iteration consumes at
least one character, so the wrapper's budget is never exhausted. -/
def nextTokenF : Nat → List Char → Token × List Char
  | 0, _ => (Token.eof, [])
  | _ + 1, [] => (Token.eof, [])
  | fuel + 1, c :: cs =>
    if c.isWhitespace then nextTokenF fuel cs
    else if c = '=' then (Token.equals, cs)
    else if c = ';' then (Token.semiColon, cs)
    else if c = '(' then (Token.leftParen, cs)
    else if c = ')' then (Token.rightParen, cs)
    else if c = ',' then (Token.comma, cs)
    else if c = '+' then (Token.plus, cs)
    else if c = '*' then (Token.star, cs)
    else if c = '/' then (Token.slash, cs)
    else if c = '-' then
      match cs with
      | c2 :: _ =>
        if c2.isDigit || c2 = '.' then
          match read_number (c :: cs) with
          | (some n, rest) => (Token.literal (Literal.number n), rest)
          | (none, rest) => nextTokenF fuel (rest.drop 1)
        else (Token.minus, cs)
      | [] => (Token.minus, cs)
    else if c = '.' then
      match cs with
      | c2 :: _ =>
        if c2.isDigit then
          match read_number (c :: cs) with
          | (some n, rest) => (Token.literal (Literal.number n), rest)
          | (none, rest) => nextTokenF fuel (rest.drop 1)
        else nextTokenF fuel cs
      | [] => nextTokenF fuel cs
    else if c.isDigit then
      match read_number (c :: cs) with
      | (some n, rest) => (Token.literal (Literal.number n), rest)
      | (none, rest) => nextTokenF fuel (rest.drop 1)
    else if c.isAlpha || c = '_' then
      let rest := (c :: cs).dropWhile identChar
      match String.mk ((c :: cs).takeWhile identChar) with
      | "var" => (Token.var, rest)
      | "true" => (Token.literal (Literal.boolean true), rest)
      | "false" => (Token.literal (Literal.boolean false), rest)
      | s => (Token.identifier s, rest)
    else if c = '"' then
      let (s, r) := read_string_body cs
      (Token.literal (Literal.string (String.mk s)), r)
    else nextTokenF fuel cs

/-- Modelled from the spec: one tokenizer step on the remaining
character stream. -/
def next_token (cs : List Char) : Token × List Char :=
  nextTokenF (cs.length + 1) cs

/-- Modelled from the spec: lexer state (current token plus character
cursor, spec.md §4.1 contract). -/
structure Lexer where
  chars : List Char
  current_token : Token
  deriving DecidableEq

/-- Modelled from the spec: `advance` (consume current, compute next). -/
def Lexer.advance (lx : Lexer) : Lexer :=
  { chars := (next_token lx.chars).2, current_token := (next_token lx.chars).1 }

/-- Modelled from the spec: lexer construction. -/
def Lexer.new (input : String) : Lexer :=
  Lexer.advance { chars := input.toList, current_token := Token.eof }

/-- Modelled from the spec: binary operator tags (`BinaryOp` re-exported
by src/src/lib.rs and used by the tests: `Add`, `Subtract`, `Multiply`,
`Divide`). -/
inductive BinaryOp where
  | add
  | subtract
  | multiply
  | divide
  deriving DecidableEq

/-- Modelled from the spec: AST expressions including binary operations
(spec.md §3 `Expression`; `Expression::Binary { left, op, right }` in
the tests). -/
inductive Expression where
  | literal (l : Literal)
  | identifier (name : String)
  | functionCall (name : String) (args : List Expression)
  | binary (left : Expression) (op : BinaryOp) (right : Expression)

/-- Modelled from the spec: statements (spec.md §3 `Statement`). -/
inductive Statement where
  | varDeclaration (name : String) (value : Expression)
  | expression (e : Expression)

/-- Modelled from the spec: the parse result (spec.md §3 `Program`). -/
structure Program where
  statements : List Statement

/-- Modelled from the spec: parse errors (spec.md §7); as in the
snapshot, `invalidExpression` is never produced by the grammar and
doubles as the recursion-budget-exhaustion result, which never occurs
on the inputs used. -/
inductive ParseError where
  | unexpectedToken (expected : String) (found : Token)
  | unexpectedEOF
  | invalidExpression
  deriving DecidableEq

/-- Rust `std::mem::discriminant` equality specialised to `Token`. -/
def Token.sameKind : Token → Token → Bool
  | Token.var, Token.var => true
  | Token.identifier _, Token.identifier _ => true
  | Token.equals, Token.equals => true
  | Token.semiColon, Token.semiColon => true
  | Token.literal _, Token.literal _ => true
  | Token.leftParen, Token.leftParen => true
  | Token.rightParen, Token.rightParen => true
  | Token.comma, Token.comma => true
  | Token.plus, Token.plus => true
  | Token.minus, Token.minus => true
  | Token.star, Token.star => true
  | Token.slash, Token.slash => true
  | Token.eof, Token.eof => true
  | _, _ => false

/-- Debug name of a token, for the `expected` field of parse errors. -/
def Token.debugName : Token → String
  | Token.var => "Var"
  | Token.identifier s => "Identifier(" ++ s ++ ")"
  | Token.equals => "Equals"
  | Token.semiColon => "SemiColon"
  | Token.literal _ => "Literal"
  | Token.leftParen => "LeftParen"
  | Token.rightParen => "RightParen"
  | Token.comma => "Comma"
  | Token.plus => "Plus"
  | Token.minus => "Minus"
  | Token.star => "Star"
  | Token.slash => "Slash"
  | Token.eof => "EOF"

/-- Modelled from the spec: `expect_token`, as in the snapshot. -/
def expect_token (expected : Token) (lx : Lexer) : Except ParseError Lexer :=
  if lx.current_token.sameKind expected then Except.ok lx.advance
  else Except.error (ParseError.unexpectedToken expected.debugName lx.current_token)

mutual

/-- Modelled from the spec: `expression := additive` (spec.md §4.2
grammar; fuel-indexed, the fuel only bounds recursion depth and is
never exhausted when supplied by `parseSource`). -/
def parse_expression : Nat → Lexer → Except ParseError (Expression × Lexer)
  | 0, _ => Except.error ParseError.invalidExpression
  | fuel + 1, lx => parse_additive fuel lx

/-- Modelled from the spec: the left-associative rule `additive :=
multiplicative (("+"|"-") multiplicative)*`. -/
def parse_additive : Nat → Lexer → Except ParseError (Expression × Lexer)
  | 0, _ => Except.error ParseError.invalidExpression
  | fuel + 1, lx =>
    match parse_multiplicative fuel lx with
    | Except.error e => Except.error e
    | Except.ok (left, lx1) => additive_loop fuel left lx1

/-- Modelled from the spec: the iteration of the additive rule. -/
def additive_loop : Nat → Expression → Lexer → Except ParseError (Expression × Lexer)
  | 0, _, _ => Except.error ParseError.invalidExpression
  | fuel + 1, left, lx =>
    match lx.current_token with
    | Token.plus =>
      match parse_multiplicative fuel lx.advance with
      | Except.error e => Except.error e
      | Except.ok (right, lx1) => additive_loop fuel (Expression.binary left BinaryOp.add right) lx1
    | Token.minus =>
      match parse_multiplicative fuel lx.advance with
      | Except.error e => Except.error e
      | Except.ok (right, lx1) =>
        additive_loop fuel (Expression.binary left BinaryOp.subtract right) lx1
    | _ => Except.ok (left, lx)

/-- Modelled from the spec: the left-associative rule `multiplicative
:= primary (("*"|"/") primary)*`. -/
def parse_multiplicative : Nat → Lexer → Except ParseError (Expression × Lexer)
  | 0, _ => Except.error ParseError.invalidExpression
  | fuel + 1, lx =>
    match parse_primary fuel lx with
    | Except.error e => Except.error e
    | Except.ok (left, lx1) => multiplicative_loop fuel left lx1

/-- Modelled from the spec: the iteration of the multiplicative rule. -/
def multiplicative_loop : Nat → Expression → Lexer → Except ParseError (Expression × Lexer)
  | 0, _, _ => Except.error ParseError.invalidExpression
  | fuel + 1, left, lx =>
    match lx.current_token with
    | Token.star =>
      match parse_primary fuel lx.advance with
      | Except.error e => Except.error e
      | Except.ok (right, lx1) =>
        multiplicative_loop fuel (Expression.binary left BinaryOp.multiply right) lx1
    | Token.slash =>
      match parse_primary fuel lx.advance with
      | Except.error e => Except.error e
      | Except.ok (right, lx1) =>
        multiplicative_loop fuel (Expression.binary left BinaryOp.divide right) lx1
    | _ => Except.ok (left, lx)

/-- Modelled from the spec: `primary := literal | identifier ("(" args
")")? | "(" expression ")"` (spec.md §4.2); parenthesization overrides
precedence. -/
def parse_primary : Nat → Lexer → Except ParseError (Expression × Lexer)
  | 0, _ => Except.error ParseError.invalidExpression
  | fuel + 1, lx =>
    match lx.current_token with
    | Token.literal l => Except.ok (Expression.literal l, lx.advance)
    | Token.identifier name =>
      let lx1 := lx.advance
      if lx1.current_token.sameKind Token.leftParen then
        parse_function_call fuel name lx1
      else
        Except.ok (Expression.identifier name, lx1)
    | Token.leftParen =>
      match parse_expression fuel lx.advance with
      | Except.error e => Except.error e
      | Except.ok (e, lx1) =>
        match expect_token Token.rightParen lx1 with
        | Except.error er => Except.error er
        | Except.ok lx2 => Except.ok (e, lx2)
    | t => Except.error (ParseError.unexpectedToken "expression" t)

/-- Modelled from the spec: call parsing, as in the snapshot's
`parse_function_call`. -/
def parse_function_call : Nat → String → Lexer → Except ParseError (Expression × Lexer)
  | 0, _, _ => Except.error ParseError.invalidExpression
  | fuel + 1, name, lx =>
    match expect_token Token.leftParen lx with
    | Except.error e => Except.error e
    | Except.ok lx1 =>
      if lx1.current_token.sameKind Token.rightParen then
        Except.ok (Expression.functionCall name [], lx1.advance)
      else
        match parse_args fuel lx1 [] with
        | Except.error e => Except.error e
        | Except.ok (args, lx2) => Except.ok (Expression.functionCall name args, lx2)

/-- Modelled from the spec: the argument loop of `parse_function_call`. -/
def parse_args : Nat → Lexer → List Expression → Except ParseError (List Expression × Lexer)
  | 0, _, _ => Except.error ParseError.invalidExpression
  | fuel + 1, lx, acc =>
    match parse_expression fuel lx with
    | Except.error e => Except.error e
    | Except.ok (arg, lx1) =>
      match lx1.current_token with
      | Token.comma => parse_args fuel lx1.advance (acc ++ [arg])
      | Token.rightParen => Except.ok (acc ++ [arg], lx1.advance)
      | t => Except.error (ParseError.unexpectedToken "',' or ')'" t)

end

/-- Modelled from the spec: `statement := "var" identifier "="
expression ";"`, as in the snapshot's `parse_var_declaration`. -/
def parse_var_declaration (fuel : Nat) (lx : Lexer) : Except ParseError (Statement × Lexer) :=
  let lx1 := lx.advance
  match lx1.current_token with
  | Token.identifier name =>
    let lx2 := lx1.advance
    match expect_token Token.equals lx2 with
    | Except.error e => Except.error e
    | Except.ok lx3 =>
      match parse_expression fuel lx3 with
      | Except.error e => Except.error e
      | Except.ok (value, lx4) =>
        match expect_token Token.semiColon lx4 with
        | Except.error e => Except.error e
        | Except.ok lx5 => Except.ok (Statement.varDeclaration name value, lx5)
  | t => Except.error (ParseError.unexpectedToken "identifier" t)

/-- Modelled from the spec: statement dispatch, as in the snapshot. -/
def parse_statement (fuel : Nat) (lx : Lexer) : Except ParseError (Statement × Lexer) :=
  match lx.current_token with
  | Token.var => parse_var_declaration fuel lx
  | _ =>
    match parse_expression fuel lx with
    | Except.error e => Except.error e
    | Except.ok (expr, lx1) =>
      match expect_token Token.semiColon lx1 with
      | Except.error e => Except.error e
      | Except.ok lx2 => Except.ok (Statement.expression expr, lx2)

/-- Modelled from the spec: the statement loop of `parse`. -/
def parse_program : Nat → Lexer → List Statement → Except ParseError Program
  | 0, _, _ => Except.error ParseError.invalidExpression
  | fuel + 1, lx, acc =>
    if lx.current_token.sameKind Token.eof then Except.ok { statements := acc }
    else
      match parse_statement fuel lx with
      | Except.error e => Except.error e
      | Except.ok (stmt, lx1) => parse_program fuel lx1 (acc ++ [stmt])

/-- Modelled from the spec: `parse` on a source string.  The fuel bound
comfortably exceeds the recursion depth and loop count any input of
this length can produce. -/
def parseSource (s : String) : Except ParseError Program :=
  parse_program (4 * s.length + 4) (Lexer.new s) []

/-- Modelled from the spec: runtime values (spec.md §3 `Value`).  The
type has no infinity or NaN inhabitant: numbers are exact rationals. -/
inductive Value where
  | string (s : String)
  | number (n : Rat)
  | boolean (b : Bool)
  | null
  deriving DecidableEq

/-- Modelled from the spec: runtime errors (spec.md §7), as in the
snapshot's `RuntimeError`. -/
inductive RuntimeError where
  | undefinedVariable (name : String)
  | undefinedFunction (name : String)
  | typeError (msg : String)
  | arityMismatch (function : String) (expected : Nat) (found : Nat)
  deriving DecidableEq

/-- Rational addition written with `mkRat` so that it evaluates inside
the kernel; `ratAdd_eq` identifies it with the standard `Rat` addition. -/
def ratAdd (a b : Rat) : Rat := mkRat (a.num * b.den + b.num * a.den) (a.den * b.den)

/-- Rational subtraction via `mkRat`; see `ratSub_eq`. -/
def ratSub (a b : Rat) : Rat := mkRat (a.num * b.den - b.num * a.den) (a.den * b.den)

/-- Rational multiplication via `mkRat`; see `ratMul_eq`. -/
def ratMul (a b : Rat) : Rat := mkRat (a.num * b.num) (a.den * b.den)

/-- Rational division via `Rat.divInt`; see `ratDiv_eq`. -/
def ratDiv (a b : Rat) : Rat := Rat.divInt (a.num * b.den) (a.den * b.num)

theorem ratAdd_eq (a b : Rat) : ratAdd a b = a + b := (Rat.add_def' a b).symm

theorem ratSub_eq (a b : Rat) : ratSub a b = a - b := (Rat.sub_def' a b).symm

theorem ratMul_eq (a b : Rat) : ratMul a b = a * b := by
  rw [ratMul, Rat.mul_def, Rat.normalize_eq_mkRat]

theorem ratDiv_eq (a b : Rat) : ratDiv a b = a / b := by
  rw [ratDiv, Rat.div_def']

/-- Modelled from the spec: the type name of a value, as returned by
`typeof` and used in type-error messages (spec.md §4.3). -/
def typeName : Value → String
  | Value.string _ => "string"
  | Value.number _ => "number"
  | Value.boolean _ => "boolean"
  | Value.null => "null"

/-- Name of a binary operator for type-error messages. -/
def opSymbol : BinaryOp → String
  | BinaryOp.add => "+"
  | BinaryOp.subtract => "-"
  | BinaryOp.multiply => "*"
  | BinaryOp.divide => "/"

/-- Modelled from the spec: combination of two evaluated operands
(spec.md §4.3): number ⊕ number is numeric for all four operators with
division by exactly zero a type error "division by zero"; string +
string concatenates; anything else is a type error naming the operator
and both operand type names. -/
def apply_binary (op : BinaryOp) (l r : Value) : Except RuntimeError Value :=
  match l, op, r with
  | Value.number a, BinaryOp.add, Value.number b => Except.ok (Value.number (ratAdd a b))
  | Value.number a, BinaryOp.subtract, Value.number b => Except.ok (Value.number (ratSub a b))
  | Value.number a, BinaryOp.multiply, Value.number b => Except.ok (Value.number (ratMul a b))
  | Value.number a, BinaryOp.divide, Value.number b =>
    if b = 0 then Except.error (RuntimeError.typeError "division by zero")
    else Except.ok (Value.number (ratDiv a b))
  | Value.string a, BinaryOp.add, Value.string b => Except.ok (Value.string (a ++ b))
  | a, op2, b =>
    Except.error (RuntimeError.typeError
      ("cannot apply " ++ opSymbol op2 ++ " to " ++ typeName a ++ " and " ++ typeName b))

/-- Modelled from the spec: the variable scope, a flat map modelled by
its lookup function (spec.md §3 `Environment`). -/
structure Environment where
  vars : String → Option Value

/-- Modelled from the spec: insert-or-overwrite binding. -/
def Environment.define (env : Environment) (name : String) (v : Value) : Environment :=
  { vars := fun n => if n = name then some v else env.vars n }

/-- Modelled from the spec: variable lookup, `UndefinedVariable` when
absent. -/
def Environment.get (env : Environment) (name : String) : Except RuntimeError Value :=
  match env.vars name with
  | some v => Except.ok v
  | none => Except.error (RuntimeError.undefinedVariable name)

/-- Modelled from the spec: evaluator state (environment plus the text
written to standard output). -/
structure Interpreter where
  environment : Environment
  output : String

/-- Modelled from the spec: evaluator construction (empty environment). -/
def Interpreter.new : Interpreter :=
  { environment := { vars := fun _ => none }, output := "" }

/-- Modelled from the spec: the final variable mapping exposed to the
caller. -/
def get_variables (it : Interpreter) : String → Option Value :=
  it.environment.vars

/-- Modelled from the spec: literal-to-value conversion (direct
mapping). -/
def literal_to_value : Literal → Value
  | Literal.string s => Value.string s
  | Literal.number n => Value.number n
  | Literal.boolean b => Value.boolean b

/-- Modelled from the spec: display form of a value (spec.md §4.3);
integral numbers print without a decimal point; non-integral formatting
is approximated by the rational's string form (no claim depends on
it). -/
def Value.display : Value → String
  | Value.string s => s
  | Value.number n => if n.den = 1 then toString n.num else toString n
  | Value.boolean b => toString b
  | Value.null => "null"

/-- Space-separated display forms, as written by `print`. -/
def joinDisplays (args : List Value) : String :=
  String.intercalate " " (args.map Value.display)

/-- Modelled from the spec: `print` (space-separated display forms, no
trailing newline, returns null). -/
def builtin_print (args : List Value) (it : Interpreter) :
    Interpreter × Except RuntimeError Value :=
  ({ it with output := it.output ++ joinDisplays args }, Except.ok Value.null)

/-- Modelled from the spec: `println` (`print` plus a newline). -/
def builtin_println (args : List Value) (it : Interpreter) :
    Interpreter × Except RuntimeError Value :=
  ({ it with output := it.output ++ joinDisplays args ++ "\n" }, Except.ok Value.null)

/-- Modelled from the spec: `typeof` (exactly one argument, else an
arity mismatch naming "typeof"; returns the operand's type name). -/
def builtin_typeof (args : List Value) : Except RuntimeError Value :=
  match args with
  | [v] => Except.ok (Value.string (typeName v))
  | _ => Except.error (RuntimeError.arityMismatch "typeof" 1 args.length)

/-- Modelled from the spec: dispatch by builtin name after the argument
values are available; unknown names are `UndefinedFunction`. -/
def dispatch_builtin (name : String) (vs : List Value) (it : Interpreter) :
    Interpreter × Except RuntimeError Value :=
  match name with
  | "print" => builtin_print vs it
  | "println" => builtin_println vs it
  | "typeof" => (it, builtin_typeof vs)
  | _ => (it, Except.error (RuntimeError.undefinedFunction name))

mutual

/-- Modelled from the spec: expression evaluation (spec.md §4.3):
literals map directly, identifiers are looked up, binary operations
evaluate left then right then combine, calls evaluate all arguments
left to right before dispatching on the name. -/
def evaluate_expression (it : Interpreter) : Expression → Interpreter × Except RuntimeError Value
  | Expression.literal l => (it, Except.ok (literal_to_value l))
  | Expression.identifier name => (it, it.environment.get name)
  | Expression.functionCall name args =>
    match evaluate_args it args with
    | (it1, Except.error e) => (it1, Except.error e)
    | (it1, Except.ok vs) => dispatch_builtin name vs it1
  | Expression.binary left op right =>
    match evaluate_expression it left with
    | (it1, Except.error e) => (it1, Except.error e)
    | (it1, Except.ok lv) =>
      match evaluate_expression it1 right with
      | (it2, Except.error e) => (it2, Except.error e)
      | (it2, Except.ok rv) => (it2, apply_binary op lv rv)
  termination_by structural e => e

/-- Modelled from the spec: left-to-right argument evaluation, stopping
at the first error. -/
def evaluate_args (it : Interpreter) : List Expression → Interpreter × Except RuntimeError (List Value)
  | [] => (it, Except.ok [])
  | a :: rest =>
    match evaluate_expression it a with
    | (it1, Except.error e) => (it1, Except.error e)
    | (it1, Except.ok v) =>
      match evaluate_args it1 rest with
      | (it2, Except.error e) => (it2, Except.error e)
      | (it2, Except.ok vs) => (it2, Except.ok (v :: vs))
  termination_by structural l => l

end

/-- Modelled from the spec: statement execution (spec.md §4.3):
declarations evaluate the initializer then bind; expression statements
evaluate for effect. -/
def execute_statement (it : Interpreter) : Statement → Interpreter × Option RuntimeError
  | Statement.varDeclaration name value =>
    match evaluate_expression it value with
    | (it1, Except.error e) => (it1, some e)
    | (it1, Except.ok v) =>
      ({ it1 with environment := it1.environment.define name v }, none)
  | Statement.expression e =>
    match evaluate_expression it e with
    | (it1, Except.error er) => (it1, some er)
    | (it1, Except.ok _) => (it1, none)

/-- Modelled from the spec: execute statements in order, stopping at
the first runtime failure. -/
def interpret_statements (it : Interpreter) : List Statement → Interpreter × Option RuntimeError
  | [] => (it, none)
  | s :: rest =>
    match execute_statement it s with
    | (it1, some e) => (it1, some e)
    | (it1, none) => interpret_statements it1 rest

/-- Modelled from the spec: `interpret`. -/
def interpret (it : Interpreter) (p : Program) : Interpreter × Option RuntimeError :=
  interpret_statements it p.statements

/-- Full pipeline, final state (parse failure gives `none`; the final
state is returned whether or not a runtime error occurred). -/
def runSt (s : String) : Option Interpreter :=
  match parseSource s with
  | Except.error _ => none
  | Except.ok p => some (interpret Interpreter.new p).1

/-- Full pipeline, error outcome: `some e` when parsing succeeded and
interpreting stopped at runtime error `e`. -/
def runErr (s : String) : Option RuntimeError :=
  match parseSource s with
  | Except.error _ => none
  | Except.ok p => (interpret Interpreter.new p).2

/-- Full pipeline, success: the final state provided tokenizing,
parsing and interpreting all succeed. -/
def runOk (s : String) : Option Interpreter :=
  match parseSource s with
  | Except.error _ => none
  | Except.ok p =>
    match interpret Interpreter.new p with
    | (it, none) => some it
    | (_, some _) => none

end SpecArith

namespace SimpleScript

/-- Dispatching a builtin never changes the environment (only the
output and the returned value). -/
theorem dispatch_builtin_env (name : String) (vs : List Value) (it : Interpreter) :
    (dispatch_builtin name vs it).1.environment = it.environment := by
  unfold dispatch_builtin
  split <;> rfl

mutual

/-- Expression evaluation never changes the environment: the language
has no assignment expression, and builtins only write output. -/
theorem evaluate_expression_env (it : Interpreter) :
    (e : Expression) → (evaluate_expression it e).1.environment = it.environment
  | Expression.literal l => rfl
  | Expression.identifier name => rfl
  | Expression.functionCall name args => by
    have h := evaluate_args_env it args
    rw [evaluate_expression]
    rcases hh : evaluate_args it args with ⟨it1, r⟩
    rw [hh] at h
    dsimp only at h
    cases r with
    | error e => simpa using h
    | ok vs =>
      dsimp only
      unfold dispatch_builtin
      split <;> simpa using h
  termination_by structural e => e

/-- Argument evaluation never changes the environment. -/
theorem evaluate_args_env (it : Interpreter) :
    (l : List Expression) → (evaluate_args it l).1.environment = it.environment
  | [] => rfl
  | a :: rest => by
    have h1 := evaluate_expression_env it a
    rw [evaluate_args]
    rcases hh : evaluate_expression it a with ⟨it1, r⟩
    rw [hh] at h1
    dsimp only at h1
    cases r with
    | error e => simpa using h1
    | ok v =>
      dsimp only
      have h2 := evaluate_args_env it1 rest
      rcases hh2 : evaluate_args it1 rest with ⟨it2, r2⟩
      rw [hh2] at h2
      dsimp only at h2
      cases r2 with
      | error e => exact h2.trans h1
      | ok vs => exact h2.trans h1
  termination_by structural l => l

end

/-- A statement that fails leaves the environment exactly as it was:
`define` is only reached after the initializer evaluated successfully. -/
theorem execute_statement_error_env (it : Interpreter) (s : Statement)
    (it' : Interpreter) (e : RuntimeError)
    (h : execute_statement it s = (it', some e)) : it'.environment = it.environment := by
  cases s with
  | varDeclaration name value =>
    have hv := evaluate_expression_env it value
    simp only [execute_statement] at h
    rcases hh : evaluate_expression it value with ⟨it1, r⟩
    rw [hh] at h hv
    dsimp only at hv
    cases r with
    | error e2 =>
      dsimp only at h
      injection h with ha hb
      rw [← ha]
      exact hv
    | ok v =>
      dsimp only at h
      injection h with ha hb
      exact Option.noConfusion hb
  | expression e2 =>
    have hv := evaluate_expression_env it e2
    simp only [execute_statement] at h
    rcases hh : evaluate_expression it e2 with ⟨it1, r⟩
    rw [hh] at h hv
    dsimp only at hv
    cases r with
    | error e3 =>
      dsimp only at h
      injection h with ha hb
      rw [← ha]
      exact hv
    | ok v =>
      dsimp only at h
      injection h with ha hb
      exact Option.noConfusion hb

/-- Statement execution never removes a binding: `define` only inserts
or overwrites. -/
theorem execute_statement_mono (it : Interpreter) (s : Statement) (n : String)
    (h : (it.environment.vars n).isSome = true) :
    (((execute_statement it s).1).environment.vars n).isSome = true := by
  cases s with
  | varDeclaration name value =>
    have hv := evaluate_expression_env it value
    simp only [execute_statement]
    rcases hh : evaluate_expression it value with ⟨it1, r⟩
    rw [hh] at hv
    dsimp only at hv
    cases r with
    | error e =>
      dsimp only
      rw [hv]
      exact h
    | ok v =>
      dsimp only
      by_cases hn : n = name <;> simp [Environment.define, hn, hv, h]
  | expression e2 =>
    have hv := evaluate_expression_env it e2
    simp only [execute_statement]
    rcases hh : evaluate_expression it e2 with ⟨it1, r⟩
    rw [hh] at hv
    dsimp only at hv
    cases r with
    | error e3 =>
      dsimp only
      rw [hv]
      exact h
    | ok v =>
      dsimp only
      rw [hv]
      exact h

/-- Running any statement list never removes a binding, whether or not
a runtime error stops the run. -/
theorem interpret_statements_mono (stmts : List Statement) :
    ∀ (it : Interpreter) (n : String), (it.environment.vars n).isSome = true →
      (((interpret_statements it stmts).1).environment.vars n).isSome = true := by
  induction stmts with
  | nil => intro it n h; exact h
  | cons s rest ih =>
    intro it n h
    simp only [interpret_statements]
    have h1 := execute_statement_mono it s n h
    rcases hh : execute_statement it s with ⟨it1, r⟩
    rw [hh] at h1
    dsimp only at h1
    cases r with
    | some e => exact h1
    | none => exact ih it1 n h1

/-- Advancing a lexer whose character stream is exhausted produces the
end-of-input token and leaves the stream exhausted. -/
theorem advance_of_exhausted (lx : Lexer) (h : lx.chars = []) :
    lx.advance = { chars := [], current_token := Token.eof } := by
  simp [Lexer.advance, h, next_token, nextTokenF]

end SimpleScript

/-!
## Claim theorems
-/

/-- C1: for the source `"var r1 = 2 + 3 * 4; var r2 = (2 + 3) * 4;"`,
tokenizing, parsing and interpreting succeed (the pipeline returns a
final state with no error) and leave `r1` bound to the number 14 and
`r2` bound to the number 20: multiplicative operators bind tighter than
additive ones and parenthesization overrides both. -/
theorem C1_precedence_parenthesization :
    ((SpecArith.runOk "var r1 = 2 + 3 * 4; var r2 = (2 + 3) * 4;").bind
        (fun it => SpecArith.get_variables it "r1") = some (SpecArith.Value.number 14))
    ∧ ((SpecArith.runOk "var r1 = 2 + 3 * 4; var r2 = (2 + 3) * 4;").bind
        (fun it => SpecArith.get_variables it "r2") = some (SpecArith.Value.number 20)) := by
  constructor
  · decide
  · decide

/-- C2: interpreting `"var g = \"Hi \" + \"there\";"` succeeds and binds
`g` to the string `"Hi there"`; in general, applying `+` to two string
operands yields their concatenation. -/
theorem C2_string_concatenation :
    ((SpecArith.runOk "var g = \"Hi \" + \"there\";").bind
        (fun it => SpecArith.get_variables it "g") = some (SpecArith.Value.string "Hi there"))
    ∧ (∀ a b : String,
        SpecArith.apply_binary SpecArith.BinaryOp.add
            (SpecArith.Value.string a) (SpecArith.Value.string b) =
          Except.ok (SpecArith.Value.string (a ++ b))) := by
  constructor
  · decide
  · intro a b
    rfl

/-- C4: interpreting `"var x = 1 / 0;"` fails with a
`TypeError`-classified runtime error `"division by zero"` and binds
nothing to `x` (the `Value` type has no infinity or NaN inhabitant, so
no such value can be produced); and for all four operators, applying
them to two numbers whose divisor is nonzero in the division case
yields a numeric result. -/
theorem C4_division_by_zero :
    (SpecArith.runErr "var x = 1 / 0;" =
        some (SpecArith.RuntimeError.typeError "division by zero"))
    ∧ ((SpecArith.runSt "var x = 1 / 0;").map
        (fun it => SpecArith.get_variables it "x") = some none)
    ∧ (∀ (op : SpecArith.BinaryOp) (a b : Rat), (op = SpecArith.BinaryOp.divide → b ≠ 0) →
        ∃ c : Rat,
          SpecArith.apply_binary op (SpecArith.Value.number a) (SpecArith.Value.number b) =
            Except.ok (SpecArith.Value.number c)) := by
  refine ⟨by decide, by decide, ?_⟩
  intro op a b hb
  cases op with
  | add => exact ⟨SpecArith.ratAdd a b, rfl⟩
  | subtract => exact ⟨SpecArith.ratSub a b, rfl⟩
  | multiply => exact ⟨SpecArith.ratMul a b, rfl⟩
  | divide =>
    refine ⟨SpecArith.ratDiv a b, ?_⟩
    simp [SpecArith.apply_binary, hb rfl]

/-- Witness for C4: division of the numbers 1 and 2 (a nonzero divisor)
yields a numeric result. -/
theorem C4_division_by_zero_witness :
    ∃ c : Rat,
      SpecArith.apply_binary SpecArith.BinaryOp.divide
          (SpecArith.Value.number 1) (SpecArith.Value.number 2) =
        Except.ok (SpecArith.Value.number c) :=
  C4_division_by_zero.2.2 SpecArith.BinaryOp.divide 1 2 (fun _ => by decide)

/-- C5: interpreting `"var y = x;"` in an empty environment fails with
`UndefinedVariable("x")` and `"foo(1);"` fails with
`UndefinedFunction("foo")`; in general an identifier evaluation fails
with `UndefinedVariable` exactly when the name is absent from the
environment, and a call to a name other than `print`, `println`,
`typeof` whose arguments all evaluate fails with `UndefinedFunction`
carrying that name. -/
theorem C5_undefined_references :
    (SimpleScript.runErr "var y = x;" =
        some (SimpleScript.RuntimeError.undefinedVariable "x"))
    ∧ (SimpleScript.runErr "foo(1);" =
        some (SimpleScript.RuntimeError.undefinedFunction "foo"))
    ∧ (∀ (it : SimpleScript.Interpreter) (name : String),
        (SimpleScript.evaluate_expression it (SimpleScript.Expression.identifier name)).2 =
            Except.error (SimpleScript.RuntimeError.undefinedVariable name) ↔
          SimpleScript.get_variables it name = none)
    ∧ (∀ (it : SimpleScript.Interpreter) (name : String) (args : List SimpleScript.Expression)
        (it' : SimpleScript.Interpreter) (vs : List SimpleScript.Value),
        SimpleScript.evaluate_args it args = (it', Except.ok vs) →
        name ≠ "print" → name ≠ "println" → name ≠ "typeof" →
        SimpleScript.call_function it name args =
          (it', Except.error (SimpleScript.RuntimeError.undefinedFunction name))) := by
  refine ⟨by decide, by decide, ?_, ?_⟩
  · intro it name
    cases h : it.environment.vars name with
    | none =>
      simp [SimpleScript.evaluate_expression, SimpleScript.Environment.get,
        SimpleScript.get_variables, h]
    | some v =>
      simp [SimpleScript.evaluate_expression, SimpleScript.Environment.get,
        SimpleScript.get_variables, h]
  · intro it name args it' vs h hp hpl ht
    simp only [SimpleScript.call_function, h]
    unfold SimpleScript.dispatch_builtin
    split
    · exact absurd rfl hp
    · exact absurd rfl hpl
    · exact absurd rfl ht
    · rfl

/-- Witness for C5: calling the unknown function `foo` on the literal
argument 1 (which evaluates successfully) from the fresh interpreter
state fails with `UndefinedFunction("foo")`. -/
theorem C5_undefined_references_witness :
    SimpleScript.call_function SimpleScript.Interpreter.new "foo"
        [SimpleScript.Expression.literal (SimpleScript.Literal.number 1)] =
      (SimpleScript.Interpreter.new,
        Except.error (SimpleScript.RuntimeError.undefinedFunction "foo")) :=
  C5_undefined_references.2.2.2 SimpleScript.Interpreter.new "foo"
    [SimpleScript.Expression.literal (SimpleScript.Literal.number 1)]
    SimpleScript.Interpreter.new [SimpleScript.Value.number 1]
    rfl (by decide) (by decide) (by decide)

/-- C6: `typeof` with exactly one argument returns the string
`"string"`, `"number"`, `"boolean"` or `"null"` matching the runtime
type of its operand; with any other number of arguments it fails with
`ArityMismatch{function:"typeof", expected:1, found:n}`, as the
end-to-end run of `"typeof();"` also shows. -/
theorem C6_typeof_builtin :
    (∀ s, SimpleScript.builtin_typeof [SimpleScript.Value.string s] =
        Except.ok (SimpleScript.Value.string "string"))
    ∧ (∀ q, SimpleScript.builtin_typeof [SimpleScript.Value.number q] =
        Except.ok (SimpleScript.Value.string "number"))
    ∧ (∀ b, SimpleScript.builtin_typeof [SimpleScript.Value.boolean b] =
        Except.ok (SimpleScript.Value.string "boolean"))
    ∧ (SimpleScript.builtin_typeof [SimpleScript.Value.null] =
        Except.ok (SimpleScript.Value.string "null"))
    ∧ (∀ args : List SimpleScript.Value, args.length ≠ 1 →
        SimpleScript.builtin_typeof args =
          Except.error (SimpleScript.RuntimeError.arityMismatch "typeof" 1 args.length))
    ∧ (SimpleScript.runErr "typeof();" =
        some (SimpleScript.RuntimeError.arityMismatch "typeof" 1 0)) := by
  refine ⟨fun s => rfl, fun q => rfl, fun b => rfl, rfl, ?_, by decide⟩
  intro args h
  match args with
  | [] => rfl
  | [v] => exact absurd rfl h
  | a :: b :: t => rfl

/-- Witness for C6: `typeof` applied to the empty argument list (length
0, not 1) fails with the arity mismatch naming "typeof", expected 1,
found 0. -/
theorem C6_typeof_builtin_witness :
    SimpleScript.builtin_typeof [] =
      Except.error (SimpleScript.RuntimeError.arityMismatch "typeof" 1 0) :=
  C6_typeof_builtin.2.2.2.2.1 [] (by decide)

/-- C7: interpreting `"var a = 1; var a = 2;"` succeeds without error
and leaves `a` bound to the number 2; in general `define` is
insert-or-overwrite: the defined name maps to the new value, and
redefining a name is indistinguishable from having defined it only with
the last value. -/
theorem C7_last_write_wins :
    ((SimpleScript.runOk "var a = 1; var a = 2;").bind
        (fun it => SimpleScript.get_variables it "a") = some (SimpleScript.Value.number 2))
    ∧ (∀ (env : SimpleScript.Environment) (name : String) (v : SimpleScript.Value),
        (env.define name v).vars name = some v)
    ∧ (∀ (env : SimpleScript.Environment) (name : String) (v1 v2 : SimpleScript.Value)
        (n : String),
        ((env.define name v1).define name v2).vars n = (env.define name v2).vars n) := by
  refine ⟨by decide, ?_, ?_⟩
  · intro env name v
    simp [SimpleScript.Environment.define]
  · intro env name v1 v2 n
    by_cases h : n = name <;> simp [SimpleScript.Environment.define, h]

/-- Counterexample to C3: at the input `"-."` the tokenizer sees `'-'`
followed by `'.'`, yet consumes no signed numeric literal token: the
collected text `"-."` has no digit and fails to parse, so the
tokenizer discards it and reaches end of input, yielding the `eof`
token — not a numeric literal token as the claim requires. -/
theorem C3_counterexample :
    SpecArith.next_token ('-' :: '.' :: []) = (SpecArith.Token.eof, []) := by decide

/-- C3 (amended): when the tokenizer sees `'-'` not followed by a digit
or `'.'` (including `'-'` at end of input), it emits the subtraction
operator token and consumes only the `'-'`; when `'-'` is followed by a
digit or `'.'`, it consumes the signed run of digits and dots, and
emits it as a signed numeric literal token provided that text parses as
a number (which the counterexample `"-."` fails). -/
theorem C3_minus_contextual_amended :
    (∀ (c : Char) (cs : List Char), (c.isDigit || c = '.') = false →
        SpecArith.next_token ('-' :: c :: cs) = (SpecArith.Token.minus, c :: cs))
    ∧ (SpecArith.next_token ['-'] = (SpecArith.Token.minus, []))
    ∧ (∀ (c : Char) (cs : List Char) (q : Rat) (rest : List Char),
        (c.isDigit || c = '.') = true →
        SpecArith.read_number ('-' :: c :: cs) = (some q, rest) →
        SpecArith.next_token ('-' :: c :: cs) =
          (SpecArith.Token.literal (SpecArith.Literal.number q), rest)) := by
  refine ⟨?_, by decide, ?_⟩
  · intro c cs h
    simp [SpecArith.next_token, SpecArith.nextTokenF, h]
  · intro c cs q rest h h2
    simp [SpecArith.next_token, SpecArith.nextTokenF, h, h2]

/-- Witness for C3 (amended): on the input `"-5"` the character after
`'-'` is a digit and the collected text parses, so the tokenizer emits
the signed numeric literal token for −5, consuming both characters. -/
theorem C3_minus_contextual_amended_witness :
    SpecArith.next_token ('-' :: '5' :: []) =
      (SpecArith.Token.literal (SpecArith.Literal.number (-5)), []) :=
  C3_minus_contextual_amended.2.2 '5' [] (-5) [] (by decide) (by decide)

/-- C8: once the tokenizer's character stream is exhausted, advancing
yields the end-of-input token while consuming nothing, and every
further advance leaves the lexer in that same end-of-input state
(advancing past end of input is a no-op that never yields another
token kind). -/
theorem C8_eof_stable :
    (∀ lx : SimpleScript.Lexer, lx.chars = [] →
        lx.advance = { chars := [], current_token := SimpleScript.Token.eof })
    ∧ (∀ (lx : SimpleScript.Lexer) (n : Nat), lx.chars = [] →
        lx.advanceN (n + 1) = { chars := [], current_token := SimpleScript.Token.eof }) := by
  refine ⟨SimpleScript.advance_of_exhausted, ?_⟩
  intro lx n
  induction n generalizing lx with
  | zero =>
    intro h
    rw [SimpleScript.Lexer.advanceN, SimpleScript.Lexer.advanceN,
      SimpleScript.advance_of_exhausted lx h]
  | succ n ih =>
    intro h
    rw [SimpleScript.Lexer.advanceN, SimpleScript.advance_of_exhausted lx h]
    exact ih _ rfl

/-- Witness for C8: a lexer state with an exhausted stream (current
token `var`), advanced twice, is the stable end-of-input state. -/
theorem C8_eof_stable_witness :
    SimpleScript.Lexer.advanceN
        { chars := [], current_token := SimpleScript.Token.var } 2 =
      { chars := [], current_token := SimpleScript.Token.eof } :=
  C8_eof_stable.2 { chars := [], current_token := SimpleScript.Token.var } 1 rfl

/-- C9: all arguments of a call are evaluated, left to right, before
the callee name is examined: an error from argument evaluation is
returned as is, whatever the callee name; the first argument error is
the one returned; `foo(x)` with both unbound yields
`UndefinedVariable("x")`, not `UndefinedFunction("foo")`; and `typeof`
with wrong arity still performs the output side effects of all its
arguments before failing. -/
theorem C9_args_evaluated_first :
    (∀ (it : SimpleScript.Interpreter) (name : String) (args : List SimpleScript.Expression)
        (it' : SimpleScript.Interpreter) (e : SimpleScript.RuntimeError),
        SimpleScript.evaluate_args it args = (it', Except.error e) →
        SimpleScript.call_function it name args = (it', Except.error e))
    ∧ (∀ (it : SimpleScript.Interpreter) (a : SimpleScript.Expression)
        (rest : List SimpleScript.Expression) (it1 : SimpleScript.Interpreter)
        (e : SimpleScript.RuntimeError),
        SimpleScript.evaluate_expression it a = (it1, Except.error e) →
        SimpleScript.evaluate_args it (a :: rest) = (it1, Except.error e))
    ∧ (SimpleScript.runErr "foo(x);" =
        some (SimpleScript.RuntimeError.undefinedVariable "x"))
    ∧ (SimpleScript.runErr "typeof(println(1), println(2));" =
        some (SimpleScript.RuntimeError.arityMismatch "typeof" 1 2))
    ∧ ((SimpleScript.runSt "typeof(println(1), println(2));").map
        (fun it => it.output) = some "1\n2\n") := by
  refine ⟨?_, ?_, by decide, by decide, by decide⟩
  · intro it name args it' e h
    simp only [SimpleScript.call_function, h]
  · intro it a rest it1 e h
    simp only [SimpleScript.evaluate_args, h]

/-- Witness for C9: calling `print` (a defined builtin) on the unbound
identifier `x` returns the argument's `UndefinedVariable("x")` error
without reaching the builtin. -/
theorem C9_args_evaluated_first_witness :
    SimpleScript.call_function SimpleScript.Interpreter.new "print"
        [SimpleScript.Expression.identifier "x"] =
      (SimpleScript.Interpreter.new,
        Except.error (SimpleScript.RuntimeError.undefinedVariable "x")) :=
  C9_args_evaluated_first.1 SimpleScript.Interpreter.new "print"
    [SimpleScript.Expression.identifier "x"] SimpleScript.Interpreter.new
    (SimpleScript.RuntimeError.undefinedVariable "x") rfl

/-- C10: statement execution is atomic with respect to the
environment: a statement that returns a runtime error changes no
binding; no statement execution ever removes a binding, so bindings of
earlier successfully executed statements remain observable via
`get_variables` after `interpret` returns the error, as the run of
`"var a = 1; var b = x;"` shows concretely. -/
theorem C10_statement_atomicity :
    (∀ (it : SimpleScript.Interpreter) (s : SimpleScript.Statement)
        (it' : SimpleScript.Interpreter) (e : SimpleScript.RuntimeError),
        SimpleScript.execute_statement it s = (it', some e) →
        SimpleScript.get_variables it' = SimpleScript.get_variables it)
    ∧ (∀ (stmts : List SimpleScript.Statement) (it : SimpleScript.Interpreter) (n : String),
        (SimpleScript.get_variables it n).isSome = true →
        (SimpleScript.get_variables (SimpleScript.interpret_statements it stmts).1 n).isSome =
          true)
    ∧ (SimpleScript.runErr "var a = 1; var b = x;" =
        some (SimpleScript.RuntimeError.undefinedVariable "x"))
    ∧ ((SimpleScript.runSt "var a = 1; var b = x;").bind
        (fun it => SimpleScript.get_variables it "a") = some (SimpleScript.Value.number 1))
    ∧ ((SimpleScript.runSt "var a = 1; var b = x;").map
        (fun it => SimpleScript.get_variables it "b") = some none) := by
  refine ⟨?_, ?_, by decide, by decide, by decide⟩
  · intro it s it' e h
    unfold SimpleScript.get_variables
    rw [SimpleScript.execute_statement_error_env it s it' e h]
  · intro stmts it n h
    exact SimpleScript.interpret_statements_mono stmts it n h

/-- Witness for C10: a failing declaration (`var b = x;` with `x`
unbound) leaves the variables of the starting state unchanged, and a
pre-existing binding (of `"z"`) survives running a statement list that
ends in that failing declaration. -/
theorem C10_statement_atomicity_witness :
    (SimpleScript.get_variables
        (SimpleScript.interpret_statements
          { environment :=
              { vars := fun n => if n = "z" then some SimpleScript.Value.null else none },
            output := "" }
          [SimpleScript.Statement.varDeclaration "b"
            (SimpleScript.Expression.identifier "x")]).1 "z").isSome = true :=
  C10_statement_atomicity.2.1
    [SimpleScript.Statement.varDeclaration "b" (SimpleScript.Expression.identifier "x")]
    { environment :=
        { vars := fun n => if n = "z" then some SimpleScript.Value.null else none },
      output := "" }
    "z" (by decide)
